import Mathlib

/-!
Verification of the RuneScape player-count query layer.

We shallowly embed the data model (`models.py`), the time-bucketing
engine and the aggregation/snapshot query functions (`queries.py`),
together with the activity normalisation performed at ingestion
(`runescapeplayercount.py`), and prove the specified properties.

Timestamps are modelled at one-second resolution as calendar tuples;
SQLite stores `DateTime` columns as ISO-formatted text, so SQL
comparisons and `MAX` on the timestamp column coincide with the
chronological (lexicographic tuple) order modelled here.
-/

namespace RSQueries

/-- The closed granularity enumeration from `queries.Granularity`. -/
inductive Granularity where
  | five_min
  | fifteen_min
  | thirty_min
  | hourly
  | daily
  | weekly
  | monthly
deriving DecidableEq, Repr

/-- The closed aggregation enumeration from `queries.Aggregation`. -/
inductive Aggregation where
  | average
  | peak
deriving DecidableEq, Repr

/-- A calendar timestamp (proleptic Gregorian), second resolution. -/
structure Timestamp where
  year : Nat
  month : Nat
  day : Nat
  hour : Nat
  minute : Nat
  sec : Nat
deriving DecidableEq, Repr

/-- Gregorian leap-year test (as used by SQLite's date functions). -/
def isLeap (y : Nat) : Bool :=
  y % 4 == 0 && (y % 100 != 0 || y % 400 == 0)

/-- Number of days in a month of a given year. -/
def daysInMonth (y m : Nat) : Nat :=
  match m with
  | 1 => 31
  | 2 => if isLeap y then 29 else 28
  | 3 => 31
  | 4 => 30
  | 5 => 31
  | 6 => 30
  | 7 => 31
  | 8 => 31
  | 9 => 30
  | 10 => 31
  | 11 => 30
  | 12 => 31
  | _ => 0

/-- Days of the year strictly before month `m` begins. -/
def daysBeforeMonth (y m : Nat) : Nat :=
  let feb := if isLeap y then 29 else 28
  match m with
  | 1 => 0
  | 2 => 31
  | 3 => 31 + feb
  | 4 => 62 + feb
  | 5 => 92 + feb
  | 6 => 123 + feb
  | 7 => 153 + feb
  | 8 => 184 + feb
  | 9 => 215 + feb
  | 10 => 245 + feb
  | 11 => 276 + feb
  | 12 => 306 + feb
  | _ => 0

/-- Zero-based day of the year (Jan 1 ↦ 0). -/
def dayOfYear0 (y m d : Nat) : Nat :=
  daysBeforeMonth y m + (d - 1)

/-- Days elapsed before Jan 1 of year `y`, counted from Jan 1 of year 1. -/
def daysBeforeYear (y : Nat) : Nat :=
  365 * (y - 1) + ((y - 1) / 4 - (y - 1) / 100 + (y - 1) / 400)

/-- Monday-based weekday (Monday ↦ 0, ..., Sunday ↦ 6).
Jan 1 of year 1 in the proleptic Gregorian calendar is a Monday. -/
def mondayWeekday (y m d : Nat) : Nat :=
  (daysBeforeYear y + dayOfYear0 y m d) % 7

/-- SQLite's `%W` week number: `(yday + 7 - wd) / 7` for zero-based
day-of-year `yday` and Monday-based weekday `wd`. -/
def weekW (y m d : Nat) : Nat :=
  (dayOfYear0 y m d + 7 - mondayWeekday y m d) / 7

/-- A timestamp with in-range calendar fields (year 1–9999 as in the
source datetime / SQLite text range). -/
def Timestamp.valid (t : Timestamp) : Prop :=
  1 ≤ t.year ∧ t.year ≤ 9999 ∧
  1 ≤ t.month ∧ t.month ≤ 12 ∧
  1 ≤ t.day ∧ t.day ≤ daysInMonth t.year t.month ∧
  t.hour ≤ 23 ∧ t.minute ≤ 59 ∧ t.sec ≤ 59

instance (t : Timestamp) : Decidable t.valid := by
  unfold Timestamp.valid; infer_instance

/-- Chronological (strict) order on timestamps: lexicographic on the
calendar fields, which is the order the ISO text column induces. -/
def chronLt (a b : Timestamp) : Prop :=
  a.year < b.year ∨ (a.year = b.year ∧
    (a.month < b.month ∨ (a.month = b.month ∧
      (a.day < b.day ∨ (a.day = b.day ∧
        (a.hour < b.hour ∨ (a.hour = b.hour ∧
          (a.minute < b.minute ∨ (a.minute = b.minute ∧
            a.sec < b.sec)))))))))

/-- Chronological (non-strict) order on timestamps. -/
def chronLe (a b : Timestamp) : Prop :=
  chronLt a b ∨ a = b

instance (a b : Timestamp) : Decidable (chronLt a b) := by
  unfold chronLt; infer_instance

instance (a b : Timestamp) : Decidable (chronLe a b) := by
  unfold chronLe; infer_instance

/-- Decimal digit character. -/
def digCh (n : Nat) : Char := Char.ofNat (48 + n)

/-- Two-digit zero-padded decimal rendering (for `n < 100`), as
produced by `strftime` fields `%m`, `%d`, `%H`, `%M`, `%W`. -/
def pad2 (n : Nat) : List Char := [digCh (n / 10), digCh (n % 10)]

/-- Four-digit zero-padded decimal rendering (for `n < 10000`), as
produced by `strftime` field `%Y`. -/
def pad4 (n : Nat) : List Char := pad2 (n / 100) ++ pad2 (n % 100)

/-- `printf("%02d", m)`: decimal digits of `m`, zero-padded on the
left to width 2 (multi-digit numbers are rendered unchanged). -/
def printf02d (m : Nat) : List Char :=
  if 10 ≤ m then Nat.toDigits 10 m else '0' :: Nat.toDigits 10 m

/-- Characters of `strftime("%Y-%m-%d", ts)`. -/
def strftimeDate (t : Timestamp) : List Char :=
  pad4 t.year ++ '-' :: pad2 t.month ++ '-' :: pad2 t.day

/-- Characters of `strftime("%Y-%m-%d %H:", ts)`. -/
def strftimeDateHour (t : Timestamp) : List Char :=
  strftimeDate t ++ ' ' :: pad2 t.hour ++ [':']

/-- The sub-hourly bucket sizes, the `minutes` dictionary inside
`_time_bucket`. -/
def subMinutes : Granularity → Option Nat
  | .five_min => some 5
  | .fifteen_min => some 15
  | .thirty_min => some 30
  | _ => none

/-- Characters of the bucket key produced by `_time_bucket` for a
timestamp: `strftime` of the `_BUCKET_FORMAT` pattern for hourly and
coarser granularities; for sub-hourly, `strftime("%Y-%m-%d %H:")`
followed by `printf("%02d:00", minute / n * n)`. -/
def keyChars (g : Granularity) (t : Timestamp) : List Char :=
  match subMinutes g with
  | some n => strftimeDateHour t ++ printf02d (t.minute / n * n) ++ [':', '0', '0']
  | none =>
    match g with
    | .hourly => strftimeDate t ++ ' ' :: pad2 t.hour ++ [':', '0', '0', ':', '0', '0']
    | .daily => strftimeDate t
    | .weekly => pad4 t.year ++ '-' :: pad2 (weekW t.year t.month t.day)
    | .monthly => pad4 t.year ++ '-' :: pad2 t.month
    | _ => []

/-- The bucket key of `_time_bucket(timestamp_col, granularity)`. -/
def bucket_key (g : Granularity) (t : Timestamp) : String :=
  ⟨keyChars g t⟩

/-- The string value of each `Granularity` member. -/
def Granularity.val : Granularity → String
  | .five_min => "5min"
  | .fifteen_min => "15min"
  | .thirty_min => "30min"
  | .hourly => "hourly"
  | .daily => "daily"
  | .weekly => "weekly"
  | .monthly => "monthly"

/-- `_time_bucket` as called with an arbitrary string-valued
granularity (the `str`-enum is compared by its string value):
`none` models the `KeyError` raised by the `_BUCKET_FORMAT[granularity]`
dictionary lookup for a value outside the enumeration. -/
def timeBucketOpen (g : String) (t : Timestamp) : Option String :=
  if g == "5min" then some (bucket_key .five_min t)
  else if g == "15min" then some (bucket_key .fifteen_min t)
  else if g == "30min" then some (bucket_key .thirty_min t)
  else if g == "hourly" then some (bucket_key .hourly t)
  else if g == "daily" then some (bucket_key .daily t)
  else if g == "weekly" then some (bucket_key .weekly t)
  else if g == "monthly" then some (bucket_key .monthly t)
  else none

/-- The SQL aggregate selected by `_agg_func`. -/
inductive AggFn where
  | avg
  | max
deriving DecidableEq, Repr

/-- `_agg_func` as called with an arbitrary string-valued aggregation:
`func.avg if agg == Aggregation.AVERAGE else func.max`. -/
def aggFuncOpen (agg : String) : AggFn :=
  if agg == "average" then .avg else .max

/-- A row of the `playercount` table (`models.PlayerCount`). -/
structure PlayerCount where
  id : Nat
  player_count : Nat
  game : String
  timestamp : Timestamp
deriving DecidableEq, Repr

/-- A row of the `playercountbyworld` table
(`models.PlayerCountByWorld`). -/
structure PlayerCountByWorld where
  id : Nat
  world : String
  players : Nat
  location : Option String
  type : Option String
  activity : Option String
  timestamp : Timestamp
deriving DecidableEq, Repr

/-- The `timestamp >= start, timestamp <= end` filter shared by all
range queries. -/
def inRange (s e t : Timestamp) : Bool :=
  decide (chronLe s t) && decide (chronLe t e)

/-- Strict lexicographic order on character lists (by code point). -/
def lexLt : List Char → List Char → Bool
  | [], [] => false
  | [], _ :: _ => true
  | _ :: _, [] => false
  | a :: as, b :: bs => decide (a < b) || (a == b && lexLt as bs)

/-- Non-strict lexicographic order on character lists. -/
def lexLe (s t : List Char) : Bool :=
  lexLt s t || s == t

/-- Lexicographic order on strings, the order SQLite's `ORDER BY`
uses on text bucket keys. -/
def strLe (s t : String) : Bool :=
  lexLe s.data t.data

/-- Insert into a sorted list (auxiliary to `sortByLe`). -/
def insertLe (le : α → α → Bool) (x : α) : List α → List α
  | [] => [x]
  | y :: ys => if le x y then x :: y :: ys else y :: insertLe le x ys

/-- Insertion sort by a boolean comparator; models SQL `ORDER BY`
(which fixes no order among ties). -/
def sortByLe (le : α → α → Bool) (l : List α) : List α :=
  l.foldr (insertLe le) []

/-- The SQL aggregate value over the player counts of one bucket:
`AVG` is the arithmetic mean (a real number, modelled in `ℚ`),
`MAX` the maximum. -/
def aggValue : Aggregation → List Nat → ℚ
  | .average, vs => (vs.sum : ℚ) / (vs.length : ℚ)
  | .peak, vs => ((vs.foldr max 0 : Nat) : ℚ)

/-- Shared shape of the single-series queries: group the (already
filtered) rows by bucket key, aggregate each bucket's values, order by
bucket key. -/
def seriesAgg (key : α → String) (val : α → Nat)
    (rows : List α) (agg : Aggregation) : List (String × ℚ) :=
  (sortByLe strLe ((rows.map key).dedup)).map
    (fun b => (b, aggValue agg ((rows.filter (fun r => key r == b)).map val)))

/-- `queries.player_count_timeseries`. -/
def player_count_timeseries (rows : List PlayerCount) (game : String)
    (s e : Timestamp) (g : Granularity) (agg : Aggregation) :
    List (String × ℚ) :=
  seriesAgg (fun r => bucket_key g r.timestamp) PlayerCount.player_count
    (rows.filter (fun r => r.game == game && inRange s e r.timestamp)) agg

/-- `queries.combined_total_timeseries`. -/
def combined_total_timeseries (rows : List PlayerCount)
    (s e : Timestamp) (g : Granularity) (agg : Aggregation) :
    List (String × ℚ) :=
  seriesAgg (fun r => bucket_key g r.timestamp) PlayerCount.player_count
    (rows.filter (fun r => inRange s e r.timestamp)) agg

/-- `queries.player_count_by_world`. -/
def player_count_by_world (rows : List PlayerCountByWorld) (world : String)
    (s e : Timestamp) (g : Granularity) (agg : Aggregation) :
    List (String × ℚ) :=
  seriesAgg (fun r => bucket_key g r.timestamp) PlayerCountByWorld.players
    (rows.filter (fun r => r.world == world && inRange s e r.timestamp)) agg

/-- Shared shape of the two-key summing queries (`by_type`,
`by_region`): group by (bucket, label), `SUM` the players, order by
bucket key. -/
def sumSeries (sel : PlayerCountByWorld → Option String)
    (rows : List PlayerCountByWorld) (g : Granularity) :
    List (String × Option String × Nat) :=
  (sortByLe (fun x y => strLe x.1 y.1)
      ((rows.map (fun r => (bucket_key g r.timestamp, sel r))).dedup)).map
    (fun p => (p.1, p.2,
      ((rows.filter
          (fun r => bucket_key g r.timestamp == p.1 && sel r == p.2)).map
        PlayerCountByWorld.players).sum))

/-- `queries.player_count_by_type`; the `agg` parameter is accepted
but unused, exactly as in the source. -/
def player_count_by_type (rows : List PlayerCountByWorld)
    (s e : Timestamp) (g : Granularity) (_agg : Aggregation) :
    List (String × Option String × Nat) :=
  sumSeries PlayerCountByWorld.type
    (rows.filter (fun r => inRange s e r.timestamp)) g

/-- `queries.player_count_by_region`; the `agg` parameter is accepted
but unused, exactly as in the source. -/
def player_count_by_region (rows : List PlayerCountByWorld)
    (s e : Timestamp) (g : Granularity) (_agg : Aggregation) :
    List (String × Option String × Nat) :=
  sumSeries PlayerCountByWorld.location
    (rows.filter (fun r => inRange s e r.timestamp)) g

/-- `queries.player_count_by_activity`: group by activity over the
range, `SUM(players)` and `COUNT(id)`, ordered by the sum descending. -/
def player_count_by_activity (rows : List PlayerCountByWorld)
    (s e : Timestamp) : List (Option String × Nat × Nat) :=
  let rows' := rows.filter (fun r => inRange s e r.timestamp)
  sortByLe (fun x y => decide (y.2.1 ≤ x.2.1))
    (((rows'.map PlayerCountByWorld.activity).dedup).map
      (fun a => (a,
        ((rows'.filter (fun r => r.activity == a)).map
          PlayerCountByWorld.players).sum,
        (rows'.filter (fun r => r.activity == a)).length)))

/-- The column tuple returned by `world_snapshot`. -/
def snapshotRow (r : PlayerCountByWorld) :
    String × Nat × Option String × Option String × Option String × Timestamp :=
  (r.world, r.players, r.location, r.type, r.activity, r.timestamp)

/-- `SELECT MAX(timestamp) FROM playercountbyworld`. -/
def maxTs (rows : List PlayerCountByWorld) : Option Timestamp :=
  rows.foldr
    (fun r acc =>
      match acc with
      | none => some r.timestamp
      | some t => if decide (chronLe t r.timestamp) then some r.timestamp else some t)
    none

/-- The rows of `world_snapshot` at an exactly matching timestamp,
ordered by player count descending. -/
def snapshotAt (rows : List PlayerCountByWorld) (t : Timestamp) :
    List (String × Nat × Option String × Option String × Option String × Timestamp) :=
  sortByLe (fun a b => decide (b.2.1 ≤ a.2.1))
    ((rows.filter (fun r => decide (r.timestamp = t))).map snapshotRow)

/-- `queries.world_snapshot`. -/
def world_snapshot (rows : List PlayerCountByWorld) :
    Option Timestamp →
    List (String × Nat × Option String × Option String × Option String × Timestamp)
  | some t => snapshotAt rows t
  | none =>
    match maxTs rows with
    | none => []
    | some t => snapshotAt rows t

/-- The activity normalisation applied at ingestion
(`players_by_world`): `-`, the empty string and missing values are
replaced by the sentinel `"No Activity"`. -/
def normalizeActivity : Option String → String
  | none => "No Activity"
  | some s => if s == "-" || s == "" then "No Activity" else s

/-- A missing or placeholder activity label (the values the scraper
maps to the sentinel), or the sentinel itself. -/
def isNoActivityLabel (a : Option String) : Prop :=
  a = none ∨ a = some "" ∨ a = some "-" ∨ a = some "No Activity"

instance (a : Option String) : Decidable (isNoActivityLabel a) := by
  unfold isNoActivityLabel; infer_instance

/-- Week number as the spec words it: the number of Mondays of the
year falling on or before the given date, so that days before the
year's first Monday are in week 0 and each Monday starts a new week.
Day `i` (zero-based day of year) is a Monday exactly when
`daysBeforeYear y + i` is divisible by 7 (day 0 of year 1 is a
Monday). -/
def mondaysUpTo (y m d : Nat) : Nat :=
  (List.range (dayOfYear0 y m d + 1)).countP
    (fun i => (daysBeforeYear y + i) % 7 == 0)

/-- The sub-hourly bucket key as the spec words it: the date and hour
of the timestamp followed by the minute truncated down to the nearest
multiple of the bucket size and seconds zero, `YYYY-MM-DD HH:MM:00`
with a zero-padded minute. -/
def specSubKey (t : Timestamp) (n : Nat) : String :=
  ⟨pad4 t.year ++ '-' :: pad2 t.month ++ '-' :: pad2 t.day ++
    ' ' :: pad2 t.hour ++ ':' :: pad2 (n * (t.minute / n)) ++ [':', '0', '0']⟩

/-- The common `date hour:chunk:00` character shape shared by the
hourly and sub-hourly bucket keys. -/
def dhChars (t : Timestamp) (v : Nat) : List Char :=
  strftimeDateHour t ++ pad2 v ++ [':', '0', '0']

/-- The common `year-chunk` character shape shared by the weekly and
monthly bucket keys. -/
def ymChars (y x : Nat) : List Char :=
  pad4 y ++ '-' :: pad2 x

/-- Two timestamps fall in the same bucket window of a granularity:
same truncated fields (hour, day, `%W`-week of the year, month, or
sub-hourly minute window). The weekly window is expressed through
`mondaysUpTo`, the spec's wording of the `%W` week number. -/
def sameWindow (g : Granularity) (t1 t2 : Timestamp) : Prop :=
  match g with
  | .five_min =>
    t1.year = t2.year ∧ t1.month = t2.month ∧ t1.day = t2.day ∧
      t1.hour = t2.hour ∧ t1.minute / 5 = t2.minute / 5
  | .fifteen_min =>
    t1.year = t2.year ∧ t1.month = t2.month ∧ t1.day = t2.day ∧
      t1.hour = t2.hour ∧ t1.minute / 15 = t2.minute / 15
  | .thirty_min =>
    t1.year = t2.year ∧ t1.month = t2.month ∧ t1.day = t2.day ∧
      t1.hour = t2.hour ∧ t1.minute / 30 = t2.minute / 30
  | .hourly =>
    t1.year = t2.year ∧ t1.month = t2.month ∧ t1.day = t2.day ∧
      t1.hour = t2.hour
  | .daily =>
    t1.year = t2.year ∧ t1.month = t2.month ∧ t1.day = t2.day
  | .weekly =>
    t1.year = t2.year ∧
      mondaysUpTo t1.year t1.month t1.day = mondaysUpTo t2.year t2.month t2.day
  | .monthly =>
    t1.year = t2.year ∧ t1.month = t2.month

instance (g : Granularity) (t1 t2 : Timestamp) :
    Decidable (sameWindow g t1 t2) := by
  unfold sameWindow
  cases g <;> infer_instance

/-- The values of the observations falling in one bucket among the
given (already dimension-filtered) rows. -/
def bucketObs {α : Type} (key : α → String) (val : α → Nat)
    (rows : List α) (b : String) : List Nat :=
  (rows.filter (fun r => key r == b)).map val

/-! ### Concrete stores used by witnesses and counterexamples -/

/-- A store holding a row with a NULL activity and a row with the
`"No Activity"` sentinel at the same instant. -/
def c9Rows : List PlayerCountByWorld :=
  [⟨1, "301", 5, some "United States", some "Free", none, ⟨2024, 3, 5, 12, 0, 0⟩⟩,
   ⟨2, "302", 7, some "United States", some "Free", some "No Activity",
     ⟨2024, 3, 5, 12, 0, 0⟩⟩]

/-- A store whose rows all share one scrape timestamp. -/
def c6Rows : List PlayerCountByWorld :=
  [⟨1, "301", 120, some "United States", some "Free", some "No Activity",
     ⟨2024, 3, 5, 12, 0, 0⟩⟩,
   ⟨2, "302", 340, some "Germany", some "Members", some "PvP",
     ⟨2024, 3, 5, 12, 0, 0⟩⟩]

/-- A store with two scrape instants. -/
def c7Rows : List PlayerCountByWorld :=
  [⟨1, "301", 120, some "United States", some "Free", some "No Activity",
     ⟨2024, 3, 5, 11, 0, 0⟩⟩,
   ⟨2, "301", 150, some "United States", some "Free", some "No Activity",
     ⟨2024, 3, 5, 12, 0, 0⟩⟩,
   ⟨3, "302", 90, some "Germany", some "Members", some "PvP",
     ⟨2024, 3, 5, 12, 0, 0⟩⟩]

/-- The later of the two scrape instants of `c7Rows`. -/
def c7Max : Timestamp := ⟨2024, 3, 5, 12, 0, 0⟩

/-- Global observations with one bucket holding counts 10, 20, 30. -/
def c2Rows : List PlayerCount :=
  [⟨1, 10, "OSRS", ⟨2024, 3, 5, 12, 5, 0⟩⟩,
   ⟨2, 20, "OSRS", ⟨2024, 3, 5, 12, 20, 0⟩⟩,
   ⟨3, 30, "OSRS", ⟨2024, 3, 5, 12, 50, 0⟩⟩]

/-- Range start used with `c2Rows` and `c4Rows`. -/
def c2s : Timestamp := ⟨2024, 3, 5, 0, 0, 0⟩

/-- Range end used with `c2Rows` and `c4Rows`. -/
def c2e : Timestamp := ⟨2024, 3, 5, 23, 59, 59⟩

/-- The hourly bucket key of the `c2Rows` observations. -/
def c2b : String := "2024-03-05 12:00:00"

/-- The `c2Rows` observations of the bucket `c2b`, as filtered by
`player_count_timeseries`. -/
def c2Filtered : List PlayerCount :=
  (c2Rows.filter (fun r => r.game == "OSRS" && inRange c2s c2e r.timestamp)).filter
    (fun r => bucket_key .hourly r.timestamp == c2b)

/-- World observations with two worlds of one type in one bucket. -/
def c4Rows : List PlayerCountByWorld :=
  [⟨1, "301", 120, some "United States", some "Free", some "No Activity",
     ⟨2024, 3, 5, 12, 0, 0⟩⟩,
   ⟨2, "302", 340, some "Germany", some "Free", some "PvP",
     ⟨2024, 3, 5, 12, 30, 0⟩⟩,
   ⟨3, "303", 200, some "Germany", some "Members", some "PvP",
     ⟨2024, 3, 5, 12, 30, 0⟩⟩]

/-! ### Basic facts about the chronological order -/

theorem chronLe_refl (a : Timestamp) : chronLe a a := Or.inr rfl

theorem chronLe_total (a b : Timestamp) : chronLe a b ∨ chronLe b a := by
  rcases a with ⟨y1, mo1, d1, h1, mi1, s1⟩
  rcases b with ⟨y2, mo2, d2, h2, mi2, s2⟩
  unfold chronLe chronLt
  simp only [Timestamp.mk.injEq]
  omega

theorem chronLe_trans {a b c : Timestamp}
    (h1 : chronLe a b) (h2 : chronLe b c) : chronLe a c := by
  rcases a with ⟨y1, mo1, d1, h1', mi1, s1⟩
  rcases b with ⟨y2, mo2, d2, h2', mi2, s2⟩
  rcases c with ⟨y3, mo3, d3, h3', mi3, s3⟩
  unfold chronLe chronLt at *
  simp only [Timestamp.mk.injEq] at *
  omega

/-! ### Digit and padding lemmas -/

theorem digCh_lt_all :
    ∀ x < 10, ∀ y < 10, (digCh x < digCh y ↔ x < y) := by decide

theorem digCh_inj_all :
    ∀ x < 10, ∀ y < 10, (digCh x = digCh y ↔ x = y) := by decide

theorem printf02d_eq_pad2 : ∀ m < 100, printf02d m = pad2 m := by decide

theorem lexLt_self (l : List Char) : lexLt l l = false := by
  induction l with
  | nil => rfl
  | cons a as ih => simp [lexLt, ih]

theorem lexLt_cons_self (c : Char) (r1 r2 : List Char) :
    lexLt (c :: r1) (c :: r2) = lexLt r1 r2 := by
  simp [lexLt, lt_irrefl]

theorem lexLt_pad2_iff {a b : Nat} (ha : a < 100) (hb : b < 100)
    (r1 r2 : List Char) :
    lexLt (pad2 a ++ r1) (pad2 b ++ r2) = true ↔
      a < b ∨ (a = b ∧ lexLt r1 r2 = true) := by
  have h1 := digCh_lt_all (a / 10) (by omega) (b / 10) (by omega)
  have h2 := digCh_lt_all (a % 10) (by omega) (b % 10) (by omega)
  have h3 := digCh_inj_all (a / 10) (by omega) (b / 10) (by omega)
  have h4 := digCh_inj_all (a % 10) (by omega) (b % 10) (by omega)
  simp only [pad2, List.cons_append, lexLt, Bool.or_eq_true,
    Bool.and_eq_true, decide_eq_true_eq, beq_iff_eq]
  rw [h1, h2, h3, h4]
  by_cases hr : lexLt r1 r2 = true <;> simp [hr] <;> omega

theorem pad2_append_inj {a b : Nat} (ha : a < 100) (hb : b < 100)
    (r1 r2 : List Char) :
    pad2 a ++ r1 = pad2 b ++ r2 ↔ a = b ∧ r1 = r2 := by
  have h3 := digCh_inj_all (a / 10) (by omega) (b / 10) (by omega)
  have h4 := digCh_inj_all (a % 10) (by omega) (b % 10) (by omega)
  simp only [pad2, List.cons_append, List.cons.injEq]
  rw [h3, h4]
  by_cases hr : r1 = r2 <;> simp [hr] <;> omega

theorem lexLt_pad2_last {a b : Nat} (ha : a < 100) (hb : b < 100) :
    lexLt (pad2 a) (pad2 b) = true ↔ a < b := by
  have := lexLt_pad2_iff ha hb [] []
  simpa [lexLt] using this

theorem pad2_inj_last {a b : Nat} (ha : a < 100) (hb : b < 100) :
    pad2 a = pad2 b ↔ a = b := by
  have := pad2_append_inj ha hb [] []
  simpa using this

/-! ### Sorting helpers -/

theorem insertLe_perm (le : α → α → Bool) (x : α) :
    ∀ l : List α, (insertLe le x l).Perm (x :: l) := by
  intro l
  induction l with
  | nil => exact List.Perm.refl _
  | cons y ys ih =>
    rw [insertLe]
    by_cases h : le x y = true
    · rw [if_pos h]
    · rw [if_neg h]
      exact (ih.cons y).trans (List.Perm.swap x y ys)

theorem sortByLe_perm (le : α → α → Bool) :
    ∀ l : List α, (sortByLe le l).Perm l := by
  intro l
  induction l with
  | nil => exact List.Perm.refl _
  | cons a as ih =>
    exact (insertLe_perm le a (sortByLe le as)).trans (ih.cons a)

theorem mem_sortByLe (le : α → α → Bool) (l : List α) (x : α) :
    x ∈ sortByLe le l ↔ x ∈ l :=
  (sortByLe_perm le l).mem_iff

theorem insertLe_pairwise (le : α → α → Bool)
    (trans : ∀ a b c, le a b = true → le b c = true → le a c = true)
    (total : ∀ a b, le a b = true ∨ le b a = true) (x : α) :
    ∀ l : List α, l.Pairwise (fun a b => le a b = true) →
      (insertLe le x l).Pairwise (fun a b => le a b = true) := by
  intro l
  induction l with
  | nil => intro _; simp [insertLe]
  | cons y ys ih =>
    intro h
    rw [List.pairwise_cons] at h
    obtain ⟨hy, hys⟩ := h
    rw [insertLe]
    by_cases hxy : le x y = true
    · rw [if_pos hxy]
      refine List.Pairwise.cons ?_ (List.Pairwise.cons hy hys)
      intro z hz
      rcases List.mem_cons.mp hz with rfl | hz
      · exact hxy
      · exact trans x y z hxy (hy z hz)
    · rw [if_neg hxy]
      refine List.Pairwise.cons ?_ (ih hys)
      intro z hz
      rcases List.mem_cons.mp ((insertLe_perm le x ys).mem_iff.mp hz) with he | hz'
      · subst he
        rcases total z y with h' | h'
        · exact absurd h' hxy
        · exact h'
      · exact hy z hz'

theorem sortByLe_pairwise (le : α → α → Bool)
    (trans : ∀ a b c, le a b = true → le b c = true → le a c = true)
    (total : ∀ a b, le a b = true ∨ le b a = true) :
    ∀ l : List α, (sortByLe le l).Pairwise (fun a b => le a b = true) := by
  intro l
  induction l with
  | nil => simp [sortByLe]
  | cons a as ih => exact insertLe_pairwise le trans total a _ ih

theorem sortByLe_descOn_pairwise {α : Type} (f : α → Nat) (l : List α) :
    (sortByLe (fun a b => decide (f b ≤ f a)) l).Pairwise
      (fun a b => f b ≤ f a) := by
  have h := sortByLe_pairwise (fun a b => decide (f b ≤ f a))
    (by intro a b c hab hbc; simp only [decide_eq_true_eq] at *; omega)
    (by intro a b; simp only [decide_eq_true_eq]; omega) l
  exact h.imp (by intro a b hab; simpa using hab)

/-! ### Maximum of a list of naturals (SQL `MAX` over one bucket) -/

theorem foldr_max_mem : ∀ (l : List Nat), l ≠ [] → l.foldr max 0 ∈ l := by
  intro l
  induction l with
  | nil => intro h; exact absurd rfl h
  | cons x xs ih =>
    intro _
    rcases hxs : xs with _ | ⟨y, ys⟩
    · simp
    · rw [← hxs]
      have hm := ih (by simp [hxs])
      simp only [List.foldr_cons]
      rcases Nat.le_total (xs.foldr max 0) x with h | h
      · rw [Nat.max_eq_left h]
        exact List.mem_cons_self x xs
      · rw [Nat.max_eq_right h]
        exact List.mem_cons_of_mem _ hm

theorem le_foldr_max : ∀ (l : List Nat), ∀ x ∈ l, x ≤ l.foldr max 0 := by
  intro l
  induction l with
  | nil => simp
  | cons a as ih =>
    intro x hx
    rcases List.mem_cons.mp hx with rfl | hx
    · simp only [List.foldr_cons]
      exact Nat.le_max_left _ _
    · refine Nat.le_trans (ih x hx) ?_
      simp only [List.foldr_cons]
      exact Nat.le_max_right _ _

/-! ### Facts about `maxTs` (SQL `MAX(timestamp)`) -/

theorem maxTs_eq_none_iff (rows : List PlayerCountByWorld) :
    maxTs rows = none ↔ rows = [] := by
  cases rows with
  | nil => simp [maxTs]
  | cons r rest =>
    simp only [maxTs, List.foldr_cons]
    constructor
    · intro h
      exfalso
      rcases hm : (rest.foldr _ none : Option Timestamp) with _ | t <;>
        rw [hm] at h <;> simp at h
      split at h <;> simp at h
    · intro h; exact absurd h (by simp)

theorem maxTs_spec (rows : List PlayerCountByWorld) (t : Timestamp)
    (h : maxTs rows = some t) :
    (∃ r ∈ rows, r.timestamp = t) ∧ (∀ r ∈ rows, chronLe r.timestamp t) := by
  induction rows generalizing t with
  | nil => simp [maxTs] at h
  | cons r rest ih =>
    have hcons : maxTs (r :: rest) =
        match maxTs rest with
        | none => some r.timestamp
        | some tm =>
          if decide (chronLe tm r.timestamp) then some r.timestamp else some tm := rfl
    rw [hcons] at h
    rcases hm : maxTs rest with _ | tm <;> rw [hm] at h
    · simp only [Option.some.injEq] at h
      subst h
      have hrest : rest = [] := (maxTs_eq_none_iff rest).mp hm
      subst hrest
      exact ⟨⟨r, by simp⟩, by simp [chronLe_refl]⟩
    · obtain ⟨⟨rm, hrm, hrmt⟩, hub⟩ := ih tm hm
      have h2 : (if decide (chronLe tm r.timestamp) = true
          then some r.timestamp else some tm) = some t := h
      clear h
      rename' h2 => h
      split_ifs at h with hle <;> simp only [Option.some.injEq] at h <;> subst h
      · simp only [decide_eq_true_eq] at hle
        refine ⟨⟨r, by simp⟩, ?_⟩
        intro r' hr'
        rcases List.mem_cons.mp hr' with rfl | hr'
        · exact chronLe_refl _
        · exact chronLe_trans (hub r' hr') hle
      · simp only [decide_eq_true_eq] at hle
        have hle' : chronLe r.timestamp tm := by
          rcases chronLe_total tm r.timestamp with h' | h'
          · exact absurd h' hle
          · exact h'
        refine ⟨⟨rm, by simp [hrm], hrmt⟩, ?_⟩
        intro r' hr'
        rcases List.mem_cons.mp hr' with rfl | hr'
        · exact hle'
        · exact hub r' hr'

/-! ### The `%W` week number -/

theorem countP_mod7 (f : Nat) (hf : f < 7) :
    ∀ n, (List.range (n + 1)).countP (fun i => (f + i) % 7 == 0) =
      (n + 7 - (f + n) % 7) / 7 := by
  intro n
  induction n with
  | zero =>
    rw [show List.range 1 = [0] from rfl]
    simp only [List.countP_cons, List.countP_nil]
    by_cases h : f % 7 = 0 <;> simp [h] <;> omega
  | succ n ih =>
    rw [List.range_succ, List.countP_append, ih]
    simp only [List.countP_cons, List.countP_nil]
    by_cases h : (f + (n + 1)) % 7 = 0 <;> simp [h] <;> omega

theorem weekW_eq_mondaysUpTo (y m d : Nat) :
    weekW y m d = mondaysUpTo y m d := by
  unfold mondaysUpTo
  have hpred : (fun i => ((daysBeforeYear y + i) % 7 == 0)) =
      (fun i => ((daysBeforeYear y % 7 + i) % 7 == 0)) := by
    funext i
    congr 1
    omega
  rw [hpred, countP_mod7 _ (Nat.mod_lt _ (by omega))]
  unfold weekW mondayWeekday
  have h2 : (daysBeforeYear y % 7 + dayOfYear0 y m d) % 7 =
      (daysBeforeYear y + dayOfYear0 y m d) % 7 := by omega
  rw [h2]

theorem weekW_mono (y m1 d1 m2 d2 : Nat)
    (h : dayOfYear0 y m1 d1 ≤ dayOfYear0 y m2 d2) :
    weekW y m1 d1 ≤ weekW y m2 d2 := by
  rw [weekW_eq_mondaysUpTo, weekW_eq_mondaysUpTo]
  unfold mondaysUpTo
  exact List.Sublist.countP_le _ (List.range_sublist.mpr (by omega))

theorem daysBeforeMonth_le (y m : Nat) : daysBeforeMonth y m ≤ 335 := by
  unfold daysBeforeMonth
  cases hL : isLeap y <;> simp only [hL] <;> split <;> simp

theorem dayOfYear0_le (y m d : Nat) (hd : d ≤ daysInMonth y m) :
    dayOfYear0 y m d ≤ 366 := by
  have h1 := daysBeforeMonth_le y m
  have h2 : daysInMonth y m ≤ 31 := by
    unfold daysInMonth
    split <;> try omega
    split <;> omega
  unfold dayOfYear0
  omega

theorem weekW_lt_100 (y m d : Nat) (hd : d ≤ daysInMonth y m) :
    weekW y m d < 100 := by
  have h1 := dayOfYear0_le y m d hd
  unfold weekW
  omega

theorem daysBeforeMonth_add_le (y : Nat) :
    ∀ m1 m2, 1 ≤ m1 → m1 < m2 → m2 ≤ 12 →
      daysBeforeMonth y m1 + daysInMonth y m1 ≤ daysBeforeMonth y m2 := by
  intro m1 m2 h1 h2 h3
  cases hL : isLeap y <;>
    (interval_cases m2 <;> interval_cases m1 <;>
      simp [daysBeforeMonth, daysInMonth, hL])

theorem dayOfYear0_lt (y m1 d1 m2 d2 : Nat)
    (hm1 : 1 ≤ m1) (hd1 : 1 ≤ d1) (hd1' : d1 ≤ daysInMonth y m1)
    (hm2 : m2 ≤ 12) (hd2 : 1 ≤ d2)
    (h : m1 < m2 ∨ (m1 = m2 ∧ d1 < d2)) :
    dayOfYear0 y m1 d1 < dayOfYear0 y m2 d2 := by
  rcases h with h | ⟨rfl, h⟩
  · have := daysBeforeMonth_add_le y m1 m2 hm1 h hm2
    unfold dayOfYear0
    omega
  · unfold dayOfYear0
    omega

/-- **C5.** For every timestamp, the WEEKLY bucket key is the
`year-week` pair where the week number follows the `%W` convention:
it equals the number of Mondays of the year on or before the date
(so the key's week component is 0 exactly on the days preceding the
year's first Monday, which ISO-8601 numbering never produces). -/
theorem weekly_bucket_key_follows_W_convention (t : Timestamp) :
    bucket_key .weekly t =
      ⟨pad4 t.year ++ '-' :: pad2 (mondaysUpTo t.year t.month t.day)⟩ ∧
    (mondaysUpTo t.year t.month t.day = 0 ↔
      ∀ i ≤ dayOfYear0 t.year t.month t.day,
        (daysBeforeYear t.year + i) % 7 ≠ 0) := by
  constructor
  · show (⟨keyChars .weekly t⟩ : String) = _
    rw [show keyChars .weekly t =
        pad4 t.year ++ '-' :: pad2 (weekW t.year t.month t.day) from rfl]
    rw [weekW_eq_mondaysUpTo]
  · unfold mondaysUpTo
    rw [List.countP_eq_zero]
    constructor
    · intro h i hi
      have := h i (by simp; omega)
      simpa using this
    · intro h i hi
      simp only [List.mem_range] at hi
      simpa using h i (by omega)

/-- Witness for C5: Sunday 2021-01-03 precedes the first Monday of
2021, so its weekly key has week number 0. -/
theorem weekly_bucket_key_follows_W_convention_witness :
    bucket_key .weekly ⟨2021, 1, 3, 15, 30, 0⟩ = "2021-00" ∧
    mondaysUpTo 2021 1 3 = 0 := by
  have h := weekly_bucket_key_follows_W_convention ⟨2021, 1, 3, 15, 30, 0⟩
  refine ⟨?_, ?_⟩
  · rw [h.1]; decide
  · exact h.2.mpr (by decide)

/-! ### Lexicographic comparison of bucket keys, chunk by chunk -/

theorem daysInMonth_le_31 (y m : Nat) : daysInMonth y m ≤ 31 := by
  unfold daysInMonth
  split <;> try omega
  split <;> omega

theorem lexLt_date_iff (t1 t2 : Timestamp) (h1 : t1.valid) (h2 : t2.valid)
    (r1 r2 : List Char) :
    lexLt (strftimeDate t1 ++ r1) (strftimeDate t2 ++ r2) = true ↔
      (t1.year < t2.year ∨ (t1.year = t2.year ∧
        (t1.month < t2.month ∨ (t1.month = t2.month ∧
          (t1.day < t2.day ∨ (t1.day = t2.day ∧ lexLt r1 r2 = true)))))) := by
  obtain ⟨hy1, hy1', hm1, hm1', hd1, hd1', _, _, _⟩ := h1
  obtain ⟨hy2, hy2', hm2, hm2', hd2, hd2', _, _, _⟩ := h2
  have hD1 := daysInMonth_le_31 t1.year t1.month
  have hD2 := daysInMonth_le_31 t2.year t2.month
  unfold strftimeDate pad4
  simp only [List.append_assoc, List.cons_append]
  rw [lexLt_pad2_iff (by omega : t1.year / 100 < 100)
    (by omega : t2.year / 100 < 100)]
  rw [lexLt_pad2_iff (by omega : t1.year % 100 < 100)
    (by omega : t2.year % 100 < 100)]
  rw [lexLt_cons_self]
  rw [lexLt_pad2_iff (by omega : t1.month < 100) (by omega : t2.month < 100)]
  rw [lexLt_cons_self]
  rw [lexLt_pad2_iff (by omega : t1.day < 100) (by omega : t2.day < 100)]
  by_cases hr : lexLt r1 r2 = true <;> simp [hr] <;> omega

theorem date_append_inj (t1 t2 : Timestamp) (h1 : t1.valid) (h2 : t2.valid)
    (r1 r2 : List Char) :
    strftimeDate t1 ++ r1 = strftimeDate t2 ++ r2 ↔
      (t1.year = t2.year ∧ t1.month = t2.month ∧ t1.day = t2.day ∧
        r1 = r2) := by
  obtain ⟨hy1, hy1', hm1, hm1', hd1, hd1', _, _, _⟩ := h1
  obtain ⟨hy2, hy2', hm2, hm2', hd2, hd2', _, _, _⟩ := h2
  have hD1 := daysInMonth_le_31 t1.year t1.month
  have hD2 := daysInMonth_le_31 t2.year t2.month
  unfold strftimeDate pad4
  simp only [List.append_assoc, List.cons_append]
  rw [pad2_append_inj (by omega : t1.year / 100 < 100)
    (by omega : t2.year / 100 < 100)]
  rw [pad2_append_inj (by omega : t1.year % 100 < 100)
    (by omega : t2.year % 100 < 100)]
  rw [List.cons.injEq]
  rw [pad2_append_inj (by omega : t1.month < 100) (by omega : t2.month < 100)]
  rw [List.cons.injEq]
  rw [pad2_append_inj (by omega : t1.day < 100) (by omega : t2.day < 100)]
  by_cases hr : r1 = r2 <;> simp [hr] <;> omega

theorem lexLt_dh_iff (t1 t2 : Timestamp) (h1 : t1.valid) (h2 : t2.valid)
    (v1 v2 : Nat) (hv1 : v1 < 100) (hv2 : v2 < 100) :
    lexLt (dhChars t1 v1) (dhChars t2 v2) = true ↔
      (t1.year < t2.year ∨ (t1.year = t2.year ∧
        (t1.month < t2.month ∨ (t1.month = t2.month ∧
          (t1.day < t2.day ∨ (t1.day = t2.day ∧
            (t1.hour < t2.hour ∨ (t1.hour = t2.hour ∧ v1 < v2)))))))) := by
  have hh1 : t1.hour < 100 := by obtain ⟨_, _, _, _, _, _, h, _, _⟩ := h1; omega
  have hh2 : t2.hour < 100 := by obtain ⟨_, _, _, _, _, _, h, _, _⟩ := h2; omega
  unfold dhChars strftimeDateHour
  simp only [List.append_assoc, List.cons_append, List.singleton_append,
    List.nil_append]
  rw [lexLt_date_iff t1 t2 h1 h2]
  rw [lexLt_cons_self]
  rw [lexLt_pad2_iff hh1 hh2]
  rw [lexLt_cons_self]
  rw [lexLt_pad2_iff hv1 hv2]
  rw [show lexLt [':', '0', '0'] [':', '0', '0'] = false from rfl]
  simp only [Bool.false_eq_true, and_false, or_false]

theorem dh_inj (t1 t2 : Timestamp) (h1 : t1.valid) (h2 : t2.valid)
    (v1 v2 : Nat) (hv1 : v1 < 100) (hv2 : v2 < 100) :
    dhChars t1 v1 = dhChars t2 v2 ↔
      (t1.year = t2.year ∧ t1.month = t2.month ∧ t1.day = t2.day ∧
        t1.hour = t2.hour ∧ v1 = v2) := by
  have hh1 : t1.hour < 100 := by obtain ⟨_, _, _, _, _, _, h, _, _⟩ := h1; omega
  have hh2 : t2.hour < 100 := by obtain ⟨_, _, _, _, _, _, h, _, _⟩ := h2; omega
  unfold dhChars strftimeDateHour
  simp only [List.append_assoc, List.cons_append, List.singleton_append,
    List.nil_append]
  rw [date_append_inj t1 t2 h1 h2]
  rw [List.cons.injEq]
  rw [pad2_append_inj hh1 hh2]
  rw [List.cons.injEq]
  rw [pad2_append_inj hv1 hv2]
  simp only [and_true, true_and]

theorem lexLt_ym_iff (y1 y2 x1 x2 : Nat) (hy1 : y1 ≤ 9999) (hy2 : y2 ≤ 9999)
    (hx1 : x1 < 100) (hx2 : x2 < 100) :
    lexLt (ymChars y1 x1) (ymChars y2 x2) = true ↔
      (y1 < y2 ∨ (y1 = y2 ∧ x1 < x2)) := by
  unfold ymChars pad4
  simp only [List.append_assoc, List.cons_append]
  rw [lexLt_pad2_iff (by omega : y1 / 100 < 100) (by omega : y2 / 100 < 100)]
  rw [lexLt_pad2_iff (by omega : y1 % 100 < 100) (by omega : y2 % 100 < 100)]
  rw [lexLt_cons_self]
  rw [lexLt_pad2_last hx1 hx2]
  omega

theorem ym_inj (y1 y2 x1 x2 : Nat) (hy1 : y1 ≤ 9999) (hy2 : y2 ≤ 9999)
    (hx1 : x1 < 100) (hx2 : x2 < 100) :
    ymChars y1 x1 = ymChars y2 x2 ↔ (y1 = y2 ∧ x1 = x2) := by
  unfold ymChars pad4
  simp only [List.append_assoc, List.cons_append]
  rw [pad2_append_inj (by omega : y1 / 100 < 100) (by omega : y2 / 100 < 100)]
  rw [pad2_append_inj (by omega : y1 % 100 < 100) (by omega : y2 % 100 < 100)]
  rw [List.cons.injEq]
  rw [pad2_inj_last hx1 hx2]
  simp only [true_and]
  omega

theorem lexLe_of_lt_or_eq {A B : List Char} (h : lexLt A B = true ∨ A = B) :
    lexLe A B = true := by
  rcases h with h | h
  · simp [lexLe, h]
  · subst h; simp [lexLe]

theorem keyChars_hourly (t : Timestamp) : keyChars .hourly t = dhChars t 0 := by
  have h0 : pad2 0 = ['0', '0'] := by decide
  simp [keyChars, subMinutes, dhChars, strftimeDateHour, h0, List.append_assoc]

theorem keyChars_sub (g : Granularity) (n : Nat) (hn : subMinutes g = some n)
    (t : Timestamp) (hm : t.minute / n * n < 100) :
    keyChars g t = dhChars t (t.minute / n * n) := by
  unfold keyChars
  rw [hn]
  simp [dhChars, printf02d_eq_pad2 _ hm, List.append_assoc]

theorem bucket_key_eq_iff (g : Granularity) (t1 t2 : Timestamp) :
    bucket_key g t1 = bucket_key g t2 ↔ keyChars g t1 = keyChars g t2 :=
  ⟨fun h => congrArg String.data h, fun h => congrArg String.mk h⟩

/-! ### C3: bucket keys sort lexicographically in chronological order -/

/-- **C3.** For every granularity, a chronologically earlier
timestamp has a lexicographically smaller-or-equal bucket key, and
two timestamps receive the same key exactly when they fall in the
same bucket window (same truncated calendar fields, or same
`%W`-week of the same year): chronological order of buckets matches
lexicographic order of keys, with no false merges or splits at
boundaries. -/
theorem bucket_key_lex_order_matches_chronology
    (g : Granularity) (t1 t2 : Timestamp) (h1 : t1.valid) (h2 : t2.valid) :
    (chronLt t1 t2 → strLe (bucket_key g t1) (bucket_key g t2) = true) ∧
    (bucket_key g t1 = bucket_key g t2 ↔ sameWindow g t1 t2) := by
  have hv1 := h1
  have hv2 := h2
  obtain ⟨hy1, hy1', hm1, hm1', hd1, hd1', hh1, hmi1, hs1⟩ := hv1
  obtain ⟨hy2, hy2', hm2, hm2', hd2, hd2', hh2, hmi2, hs2⟩ := hv2
  cases g with
  | five_min =>
    have hb1 : t1.minute / 5 * 5 < 100 := by omega
    have hb2 : t2.minute / 5 * 5 < 100 := by omega
    have e1 := keyChars_sub .five_min 5 rfl t1 hb1
    have e2 := keyChars_sub .five_min 5 rfl t2 hb2
    have keq := dh_inj t1 t2 h1 h2 _ _ hb1 hb2
    have klt := lexLt_dh_iff t1 t2 h1 h2 _ _ hb1 hb2
    constructor
    · intro hlt
      unfold chronLt at hlt
      show lexLe (keyChars .five_min t1) (keyChars .five_min t2) = true
      rw [e1, e2]
      apply lexLe_of_lt_or_eq
      by_cases hw : t1.year = t2.year ∧ t1.month = t2.month ∧
          t1.day = t2.day ∧ t1.hour = t2.hour ∧
          t1.minute / 5 * 5 = t2.minute / 5 * 5
      · right; exact keq.mpr hw
      · left; rw [klt]; omega
    · rw [bucket_key_eq_iff, e1, e2, keq]
      unfold sameWindow
      omega
  | fifteen_min =>
    have hb1 : t1.minute / 15 * 15 < 100 := by omega
    have hb2 : t2.minute / 15 * 15 < 100 := by omega
    have e1 := keyChars_sub .fifteen_min 15 rfl t1 hb1
    have e2 := keyChars_sub .fifteen_min 15 rfl t2 hb2
    have keq := dh_inj t1 t2 h1 h2 _ _ hb1 hb2
    have klt := lexLt_dh_iff t1 t2 h1 h2 _ _ hb1 hb2
    constructor
    · intro hlt
      unfold chronLt at hlt
      show lexLe (keyChars .fifteen_min t1) (keyChars .fifteen_min t2) = true
      rw [e1, e2]
      apply lexLe_of_lt_or_eq
      by_cases hw : t1.year = t2.year ∧ t1.month = t2.month ∧
          t1.day = t2.day ∧ t1.hour = t2.hour ∧
          t1.minute / 15 * 15 = t2.minute / 15 * 15
      · right; exact keq.mpr hw
      · left; rw [klt]; omega
    · rw [bucket_key_eq_iff, e1, e2, keq]
      unfold sameWindow
      omega
  | thirty_min =>
    have hb1 : t1.minute / 30 * 30 < 100 := by omega
    have hb2 : t2.minute / 30 * 30 < 100 := by omega
    have e1 := keyChars_sub .thirty_min 30 rfl t1 hb1
    have e2 := keyChars_sub .thirty_min 30 rfl t2 hb2
    have keq := dh_inj t1 t2 h1 h2 _ _ hb1 hb2
    have klt := lexLt_dh_iff t1 t2 h1 h2 _ _ hb1 hb2
    constructor
    · intro hlt
      unfold chronLt at hlt
      show lexLe (keyChars .thirty_min t1) (keyChars .thirty_min t2) = true
      rw [e1, e2]
      apply lexLe_of_lt_or_eq
      by_cases hw : t1.year = t2.year ∧ t1.month = t2.month ∧
          t1.day = t2.day ∧ t1.hour = t2.hour ∧
          t1.minute / 30 * 30 = t2.minute / 30 * 30
      · right; exact keq.mpr hw
      · left; rw [klt]; omega
    · rw [bucket_key_eq_iff, e1, e2, keq]
      unfold sameWindow
      omega
  | hourly =>
    have e1 := keyChars_hourly t1
    have e2 := keyChars_hourly t2
    have keq := dh_inj t1 t2 h1 h2 0 0 (by omega) (by omega)
    have klt := lexLt_dh_iff t1 t2 h1 h2 0 0 (by omega) (by omega)
    constructor
    · intro hlt
      unfold chronLt at hlt
      show lexLe (keyChars .hourly t1) (keyChars .hourly t2) = true
      rw [e1, e2]
      apply lexLe_of_lt_or_eq
      by_cases hw : t1.year = t2.year ∧ t1.month = t2.month ∧
          t1.day = t2.day ∧ t1.hour = t2.hour ∧ (0 : Nat) = 0
      · right; exact keq.mpr hw
      · left; rw [klt]; omega
    · rw [bucket_key_eq_iff, e1, e2, keq]
      unfold sameWindow
      omega
  | daily =>
    have e1 : keyChars .daily t1 = strftimeDate t1 ++ [] :=
      (List.append_nil _).symm
    have e2 : keyChars .daily t2 = strftimeDate t2 ++ [] :=
      (List.append_nil _).symm
    have keq := date_append_inj t1 t2 h1 h2 [] []
    have klt := lexLt_date_iff t1 t2 h1 h2 [] []
    constructor
    · intro hlt
      unfold chronLt at hlt
      show lexLe (keyChars .daily t1) (keyChars .daily t2) = true
      rw [e1, e2]
      apply lexLe_of_lt_or_eq
      by_cases hw : t1.year = t2.year ∧ t1.month = t2.month ∧ t1.day = t2.day
      · right; exact keq.mpr ⟨hw.1, hw.2.1, hw.2.2, rfl⟩
      · left
        rw [klt]
        rw [show lexLt ([] : List Char) [] = false from rfl]
        simp only [Bool.false_eq_true, and_false, or_false]
        omega
    · rw [bucket_key_eq_iff, e1, e2, keq]
      unfold sameWindow
      simp only [and_true]
  | weekly =>
    have hw1 : weekW t1.year t1.month t1.day < 100 :=
      weekW_lt_100 _ _ _ hd1'
    have hw2 : weekW t2.year t2.month t2.day < 100 :=
      weekW_lt_100 _ _ _ hd2'
    have e1 : keyChars .weekly t1 =
      ymChars t1.year (weekW t1.year t1.month t1.day) := rfl
    have e2 : keyChars .weekly t2 =
      ymChars t2.year (weekW t2.year t2.month t2.day) := rfl
    have keq := ym_inj t1.year t2.year _ _ hy1' hy2' hw1 hw2
    have klt := lexLt_ym_iff t1.year t2.year _ _ hy1' hy2' hw1 hw2
    constructor
    · intro hlt
      show lexLe (keyChars .weekly t1) (keyChars .weekly t2) = true
      rw [e1, e2]
      apply lexLe_of_lt_or_eq
      by_cases hwEq : t1.year = t2.year ∧
          weekW t1.year t1.month t1.day = weekW t2.year t2.month t2.day
      · right; exact keq.mpr hwEq
      · left
        rw [klt]
        unfold chronLt at hlt
        rcases Nat.lt_trichotomy t1.year t2.year with hy | hy | hy
        · exact Or.inl hy
        · refine Or.inr ⟨hy, ?_⟩
          have hmd : (t1.month < t2.month ∨
              (t1.month = t2.month ∧ t1.day < t2.day)) ∨
              (t1.month = t2.month ∧ t1.day = t2.day) := by omega
          rcases hmd with hmd | ⟨hmo, hdd⟩
          · have hyd := dayOfYear0_lt t1.year t1.month t1.day t2.month t2.day
              hm1 hd1 hd1' hm2' hd2 hmd
            have hle := weekW_mono t1.year t1.month t1.day t2.month t2.day
              (Nat.le_of_lt hyd)
            have hne : weekW t1.year t1.month t1.day ≠
                weekW t2.year t2.month t2.day := fun hcon =>
              hwEq ⟨hy, hcon⟩
            rw [← hy] at hne ⊢
            omega
          · exfalso
            apply hwEq
            refine ⟨hy, ?_⟩
            rw [← hy, hmo, hdd]
        · omega
    · rw [bucket_key_eq_iff, e1, e2, keq]
      unfold sameWindow
      rw [weekW_eq_mondaysUpTo, weekW_eq_mondaysUpTo]
  | monthly =>
    have e1 : keyChars .monthly t1 = ymChars t1.year t1.month := rfl
    have e2 : keyChars .monthly t2 = ymChars t2.year t2.month := rfl
    have keq := ym_inj t1.year t2.year t1.month t2.month hy1' hy2'
      (by omega) (by omega)
    have klt := lexLt_ym_iff t1.year t2.year t1.month t2.month hy1' hy2'
      (by omega) (by omega)
    constructor
    · intro hlt
      unfold chronLt at hlt
      show lexLe (keyChars .monthly t1) (keyChars .monthly t2) = true
      rw [e1, e2]
      apply lexLe_of_lt_or_eq
      by_cases hw : t1.year = t2.year ∧ t1.month = t2.month
      · right; exact keq.mpr hw
      · left; rw [klt]; omega
    · rw [bucket_key_eq_iff, e1, e2, keq]
      unfold sameWindow
      exact Iff.rfl

/-- Witness for C3: 12:37 and 12:44:59 are chronologically ordered
and share the 15-minute window starting 12:30, so their keys compare
`≤` and coincide. -/
theorem bucket_key_lex_order_matches_chronology_witness :
    strLe (bucket_key .fifteen_min ⟨2024, 3, 5, 12, 37, 0⟩)
      (bucket_key .fifteen_min ⟨2024, 3, 5, 12, 44, 59⟩) = true ∧
    bucket_key .fifteen_min ⟨2024, 3, 5, 12, 37, 0⟩ =
      bucket_key .fifteen_min ⟨2024, 3, 5, 12, 44, 59⟩ := by
  have h := bucket_key_lex_order_matches_chronology .fifteen_min
    ⟨2024, 3, 5, 12, 37, 0⟩ ⟨2024, 3, 5, 12, 44, 59⟩ (by decide) (by decide)
  exact ⟨h.1 (by decide), h.2.mpr (by decide)⟩

/-! ### C1: sub-hourly bucket keys -/

theorem subKey_eq (t : Timestamp) (n : Nat) (hm : t.minute / n * n < 100) :
    String.mk (strftimeDateHour t ++ printf02d (t.minute / n * n) ++
      [':', '0', '0']) = specSubKey t n := by
  rw [printf02d_eq_pad2 _ hm]
  unfold specSubKey strftimeDateHour strftimeDate
  rw [Nat.mul_comm n (t.minute / n)]
  simp [List.append_assoc]

/-- **C1.** For every timestamp and sub-hour granularity (5, 15 or 30
minutes), the bucket key is the timestamp's date and hour followed by
the minute truncated down to the nearest multiple of the granularity
and seconds zero, formatted `YYYY-MM-DD HH:MM:00` with a zero-padded
minute: the bucket minute is a multiple of `n`, at most the
timestamp's minute, and within `n` minutes of it. -/
theorem sub_hour_bucket_truncates_minutes
    (g : Granularity) (n : Nat) (t : Timestamp) (hv : t.valid)
    (hn : subMinutes g = some n) :
    bucket_key g t = specSubKey t n ∧
    (n * (t.minute / n)) % n = 0 ∧
    n * (t.minute / n) ≤ t.minute ∧
    t.minute < n * (t.minute / n) + n := by
  obtain ⟨_, _, _, _, _, _, _, hmi, _⟩ := hv
  cases g with
  | five_min =>
    have h5 : n = 5 := by simpa [subMinutes] using hn.symm
    subst h5
    exact ⟨subKey_eq t 5 (by omega), by omega, by omega, by omega⟩
  | fifteen_min =>
    have h15 : n = 15 := by simpa [subMinutes] using hn.symm
    subst h15
    exact ⟨subKey_eq t 15 (by omega), by omega, by omega, by omega⟩
  | thirty_min =>
    have h30 : n = 30 := by simpa [subMinutes] using hn.symm
    subst h30
    exact ⟨subKey_eq t 30 (by omega), by omega, by omega, by omega⟩
  | hourly => exact absurd hn (by simp [subMinutes])
  | daily => exact absurd hn (by simp [subMinutes])
  | weekly => exact absurd hn (by simp [subMinutes])
  | monthly => exact absurd hn (by simp [subMinutes])

/-- Witness for C1: minute 37 at 15-minute granularity buckets to
minute 30; minutes 3 and 59 at 5-minute granularity bucket to 0
and 55. -/
theorem sub_hour_bucket_truncates_minutes_witness :
    bucket_key .fifteen_min ⟨2024, 3, 5, 12, 37, 0⟩ =
      specSubKey ⟨2024, 3, 5, 12, 37, 0⟩ 15 ∧
    specSubKey ⟨2024, 3, 5, 12, 37, 0⟩ 15 = "2024-03-05 12:30:00" ∧
    bucket_key .five_min ⟨2024, 3, 5, 12, 3, 0⟩ = "2024-03-05 12:00:00" ∧
    bucket_key .five_min ⟨2024, 3, 5, 12, 59, 0⟩ = "2024-03-05 12:55:00" := by
  refine ⟨(sub_hour_bucket_truncates_minutes .fifteen_min 15 _
    (by decide) rfl).1, by decide, ?_, ?_⟩
  · rw [(sub_hour_bucket_truncates_minutes .five_min 5 ⟨2024, 3, 5, 12, 3, 0⟩
      (by decide) rfl).1]
    decide
  · rw [(sub_hour_bucket_truncates_minutes .five_min 5 ⟨2024, 3, 5, 12, 59, 0⟩
      (by decide) rfl).1]
    decide

/-! ### C2: average and peak aggregation of single series -/

theorem seriesAgg_mem_spec {α : Type} (key : α → String) (val : α → Nat)
    (rows : List α) (agg : Aggregation) (b : String) (v : ℚ)
    (h : (b, v) ∈ seriesAgg key val rows agg) :
    bucketObs key val rows b ≠ [] ∧
    (agg = .average →
      v = ((bucketObs key val rows b).sum : ℚ) /
          ((bucketObs key val rows b).length : ℚ)) ∧
    (agg = .peak → ∃ m : Nat, v = (m : ℚ) ∧
      m ∈ bucketObs key val rows b ∧
      ∀ x ∈ bucketObs key val rows b, x ≤ m) := by
  simp only [seriesAgg] at h
  obtain ⟨k, hk, hfk⟩ := List.mem_map.mp h
  have hb : k = b := congrArg Prod.fst hfk
  subst hb
  have hv : aggValue agg ((rows.filter (fun r => key r == k)).map val) = v :=
    congrArg Prod.snd hfk
  obtain ⟨r, hr, hkey⟩ :=
    List.mem_map.mp (List.mem_dedup.mp ((mem_sortByLe _ _ _).mp hk))
  have hrf : r ∈ rows.filter (fun r => key r == k) :=
    List.mem_filter.mpr ⟨hr, by simp [hkey]⟩
  have hne : bucketObs key val rows k ≠ [] := by
    unfold bucketObs
    simp only [ne_eq, List.map_eq_nil_iff]
    exact List.ne_nil_of_mem hrf
  refine ⟨hne, ?_, ?_⟩
  · intro ha
    subst ha
    rw [← hv]
    rfl
  · intro ha
    subst ha
    refine ⟨(bucketObs key val rows k).foldr max 0, ?_, ?_, le_foldr_max _⟩
    · rw [← hv]; rfl
    · exact foldr_max_mem _ hne

/-- **C2.** For every store, time range, dimension filter and
granularity, a `(bucket, value)` pair returned by the three
single-series functions has, for the AVERAGE mode, the arithmetic
mean of the counts observed in that bucket, and for the PEAK mode
their maximum (a value attained in the bucket and bounding every
observation in it). -/
theorem timeseries_avg_is_mean_peak_is_max
    (rowsG : List PlayerCount) (rowsW : List PlayerCountByWorld)
    (game world : String) (s e : Timestamp) (g : Granularity)
    (b : String) (v : ℚ) :
    ((b, v) ∈ player_count_timeseries rowsG game s e g .average →
      v = ((bucketObs (fun r => bucket_key g r.timestamp)
              PlayerCount.player_count
              (rowsG.filter (fun r => r.game == game && inRange s e r.timestamp))
              b).sum : ℚ) /
          ((bucketObs (fun r => bucket_key g r.timestamp)
              PlayerCount.player_count
              (rowsG.filter (fun r => r.game == game && inRange s e r.timestamp))
              b).length : ℚ)) ∧
    ((b, v) ∈ player_count_timeseries rowsG game s e g .peak →
      ∃ m : Nat, v = (m : ℚ) ∧
        m ∈ bucketObs (fun r => bucket_key g r.timestamp)
              PlayerCount.player_count
              (rowsG.filter (fun r => r.game == game && inRange s e r.timestamp)) b ∧
        ∀ x ∈ bucketObs (fun r => bucket_key g r.timestamp)
              PlayerCount.player_count
              (rowsG.filter (fun r => r.game == game && inRange s e r.timestamp)) b,
          x ≤ m) ∧
    ((b, v) ∈ combined_total_timeseries rowsG s e g .average →
      v = ((bucketObs (fun r => bucket_key g r.timestamp)
              PlayerCount.player_count
              (rowsG.filter (fun r => inRange s e r.timestamp)) b).sum : ℚ) /
          ((bucketObs (fun r => bucket_key g r.timestamp)
              PlayerCount.player_count
              (rowsG.filter (fun r => inRange s e r.timestamp)) b).length : ℚ)) ∧
    ((b, v) ∈ combined_total_timeseries rowsG s e g .peak →
      ∃ m : Nat, v = (m : ℚ) ∧
        m ∈ bucketObs (fun r => bucket_key g r.timestamp)
              PlayerCount.player_count
              (rowsG.filter (fun r => inRange s e r.timestamp)) b ∧
        ∀ x ∈ bucketObs (fun r => bucket_key g r.timestamp)
              PlayerCount.player_count
              (rowsG.filter (fun r => inRange s e r.timestamp)) b, x ≤ m) ∧
    ((b, v) ∈ player_count_by_world rowsW world s e g .average →
      v = ((bucketObs (fun r => bucket_key g r.timestamp)
              PlayerCountByWorld.players
              (rowsW.filter (fun r => r.world == world && inRange s e r.timestamp))
              b).sum : ℚ) /
          ((bucketObs (fun r => bucket_key g r.timestamp)
              PlayerCountByWorld.players
              (rowsW.filter (fun r => r.world == world && inRange s e r.timestamp))
              b).length : ℚ)) ∧
    ((b, v) ∈ player_count_by_world rowsW world s e g .peak →
      ∃ m : Nat, v = (m : ℚ) ∧
        m ∈ bucketObs (fun r => bucket_key g r.timestamp)
              PlayerCountByWorld.players
              (rowsW.filter (fun r => r.world == world && inRange s e r.timestamp)) b ∧
        ∀ x ∈ bucketObs (fun r => bucket_key g r.timestamp)
              PlayerCountByWorld.players
              (rowsW.filter (fun r => r.world == world && inRange s e r.timestamp)) b,
          x ≤ m) := by
  refine ⟨?_, ?_, ?_, ?_, ?_, ?_⟩
  · intro h
    exact (seriesAgg_mem_spec _ _ _ _ _ _ h).2.1 rfl
  · intro h
    exact (seriesAgg_mem_spec _ _ _ _ _ _ h).2.2 rfl
  · intro h
    exact (seriesAgg_mem_spec _ _ _ _ _ _ h).2.1 rfl
  · intro h
    exact (seriesAgg_mem_spec _ _ _ _ _ _ h).2.2 rfl
  · intro h
    exact (seriesAgg_mem_spec _ _ _ _ _ _ h).2.1 rfl
  · intro h
    exact (seriesAgg_mem_spec _ _ _ _ _ _ h).2.2 rfl

/-- Witness for C2: the bucket `c2b` of `c2Rows` holds the counts
10, 20, 30; its AVERAGE value is their mean and its PEAK value their
maximum. -/
theorem timeseries_avg_is_mean_peak_is_max_witness :
    (aggValue .average (c2Filtered.map PlayerCount.player_count) =
      ((bucketObs (fun r => bucket_key .hourly r.timestamp)
          PlayerCount.player_count
          (c2Rows.filter (fun r => r.game == "OSRS" && inRange c2s c2e r.timestamp))
          c2b).sum : ℚ) /
      ((bucketObs (fun r => bucket_key .hourly r.timestamp)
          PlayerCount.player_count
          (c2Rows.filter (fun r => r.game == "OSRS" && inRange c2s c2e r.timestamp))
          c2b).length : ℚ)) ∧
    (∃ m : Nat,
      aggValue .peak (c2Filtered.map PlayerCount.player_count) = (m : ℚ) ∧
      m ∈ bucketObs (fun r => bucket_key .hourly r.timestamp)
            PlayerCount.player_count
            (c2Rows.filter (fun r => r.game == "OSRS" && inRange c2s c2e r.timestamp))
            c2b ∧
      ∀ x ∈ bucketObs (fun r => bucket_key .hourly r.timestamp)
            PlayerCount.player_count
            (c2Rows.filter (fun r => r.game == "OSRS" && inRange c2s c2e r.timestamp))
            c2b, x ≤ m) := by
  constructor
  · refine (timeseries_avg_is_mean_peak_is_max c2Rows [] "OSRS" "" c2s c2e
      .hourly c2b _).1 ?_
    exact List.mem_map.mpr ⟨c2b, by decide, rfl⟩
  · refine (timeseries_avg_is_mean_peak_is_max c2Rows [] "OSRS" "" c2s c2e
      .hourly c2b _).2.1 ?_
    exact List.mem_map.mpr ⟨c2b, by decide, rfl⟩

/-! ### C4: sum-based aggregations ignore the aggregation mode -/

/-- **C4.** `player_count_by_type` and `player_count_by_region`
produce identical output under AVERAGE and PEAK (the `agg` parameter
has no influence), and every returned value is the sum of the
constituent worlds' player counts of its bucket-and-group. -/
theorem by_type_by_region_ignore_agg_and_sum
    (rows : List PlayerCountByWorld) (s e : Timestamp) (g : Granularity)
    (a1 a2 : Aggregation) (b : String) (lab : Option String) (n : Nat) :
    player_count_by_type rows s e g a1 = player_count_by_type rows s e g a2 ∧
    player_count_by_region rows s e g a1 = player_count_by_region rows s e g a2 ∧
    ((b, lab, n) ∈ player_count_by_type rows s e g a1 →
      n = (((rows.filter (fun r => inRange s e r.timestamp)).filter
          (fun r => bucket_key g r.timestamp == b && r.type == lab)).map
        PlayerCountByWorld.players).sum) ∧
    ((b, lab, n) ∈ player_count_by_region rows s e g a1 →
      n = (((rows.filter (fun r => inRange s e r.timestamp)).filter
          (fun r => bucket_key g r.timestamp == b && r.location == lab)).map
        PlayerCountByWorld.players).sum) := by
  refine ⟨rfl, rfl, ?_, ?_⟩
  · intro h
    simp only [player_count_by_type, sumSeries] at h
    obtain ⟨p, hp, hfp⟩ := List.mem_map.mp h
    have h1 : p.1 = b := congrArg Prod.fst hfp
    have h2 : p.2 = lab := congrArg (fun x => x.2.1) hfp
    have h3 := congrArg (fun x => x.2.2) hfp
    rw [h1, h2] at h3
    exact h3.symm
  · intro h
    simp only [player_count_by_region, sumSeries] at h
    obtain ⟨p, hp, hfp⟩ := List.mem_map.mp h
    have h1 : p.1 = b := congrArg Prod.fst hfp
    have h2 : p.2 = lab := congrArg (fun x => x.2.1) hfp
    have h3 := congrArg (fun x => x.2.2) hfp
    rw [h1, h2] at h3
    exact h3.symm

/-- Witness for C4: in the single hourly bucket of `c4Rows` the two
free-to-play worlds (120 and 340 players) sum to 460. -/
theorem by_type_by_region_ignore_agg_and_sum_witness :
    player_count_by_type c4Rows c2s c2e .hourly .average =
      player_count_by_type c4Rows c2s c2e .hourly .peak ∧
    460 = (((c4Rows.filter (fun r => inRange c2s c2e r.timestamp)).filter
        (fun r => bucket_key .hourly r.timestamp == "2024-03-05 12:00:00" &&
          r.type == some "Free")).map PlayerCountByWorld.players).sum := by
  constructor
  · exact (by_type_by_region_ignore_agg_and_sum c4Rows c2s c2e .hourly
      .average .peak "" none 0).1
  · exact (by_type_by_region_ignore_agg_and_sum c4Rows c2s c2e .hourly
      .average .peak "2024-03-05 12:00:00" (some "Free") 460).2.2.1 (by decide)

/-! ### C8: validation of out-of-enumeration values -/

/-- **C8 counterexample.** An aggregation value outside the closed
enumeration does not fail fast: `_agg_func` compares only against
`AVERAGE` and otherwise silently selects SQL `MAX` (the PEAK
aggregate). The granularity lookup, by contrast, does fail. -/
theorem agg_out_of_enum_silently_selects_max :
    aggFuncOpen "bogus" = AggFn.max ∧
    timeBucketOpen "bogus" ⟨2024, 1, 1, 0, 0, 0⟩ = none :=
  ⟨rfl, rfl⟩

/-- **C8 (amended).** A granularity value outside the closed
enumeration fails fast (the `_BUCKET_FORMAT` dictionary lookup raises
before any result is produced), and each member maps to its bucket
expression; an aggregation value outside the closed enumeration does
not fail fast: every value other than `"average"` silently selects
the `MAX` aggregate. -/
theorem granularity_fails_fast_aggregation_does_not
    (s : String) (t : Timestamp) :
    (s ∉ ["5min", "15min", "30min", "hourly", "daily", "weekly", "monthly"] →
      timeBucketOpen s t = none) ∧
    (∀ g : Granularity, timeBucketOpen g.val t = some (bucket_key g t)) ∧
    (s ≠ "average" → aggFuncOpen s = AggFn.max) ∧
    aggFuncOpen "average" = AggFn.avg := by
  refine ⟨?_, ?_, ?_, rfl⟩
  · intro h
    simp only [List.mem_cons, List.not_mem_nil, or_false, not_or] at h
    obtain ⟨h1, h2, h3, h4, h5, h6, h7⟩ := h
    have e1 := beq_eq_false_iff_ne.mpr h1
    have e2 := beq_eq_false_iff_ne.mpr h2
    have e3 := beq_eq_false_iff_ne.mpr h3
    have e4 := beq_eq_false_iff_ne.mpr h4
    have e5 := beq_eq_false_iff_ne.mpr h5
    have e6 := beq_eq_false_iff_ne.mpr h6
    have e7 := beq_eq_false_iff_ne.mpr h7
    simp [timeBucketOpen, e1, e2, e3, e4, e5, e6, e7]
  · intro g; cases g <;> rfl
  · intro h
    have e := beq_eq_false_iff_ne.mpr h
    simp [aggFuncOpen, e]

/-- Witness for the amended C8. -/
theorem granularity_fails_fast_aggregation_does_not_witness :
    timeBucketOpen "total" ⟨2024, 1, 1, 0, 0, 0⟩ = none ∧
    aggFuncOpen "sum" = AggFn.max := by
  refine ⟨?_, ?_⟩
  · exact (granularity_fails_fast_aggregation_does_not "total"
      ⟨2024, 1, 1, 0, 0, 0⟩).1 (by decide)
  · exact (granularity_fails_fast_aggregation_does_not "sum"
      ⟨2024, 1, 1, 0, 0, 0⟩).2.2.1 (by decide)

/-! ### C9: grouping of missing/placeholder activity labels -/

/-- **C9 counterexample.** The by-activity query groups by the raw
activity column; a store holding both a NULL-activity row and a
`"No Activity"` row yields two distinct no-activity groups in one
output. -/
theorem by_activity_splits_null_and_sentinel :
    player_count_by_activity c9Rows ⟨2024, 3, 5, 0, 0, 0⟩ ⟨2024, 3, 5, 23, 59, 59⟩ =
      [(some "No Activity", 7, 1), (none, 5, 1)] ∧
    (∀ p ∈ player_count_by_activity c9Rows ⟨2024, 3, 5, 0, 0, 0⟩
        ⟨2024, 3, 5, 23, 59, 59⟩, isNoActivityLabel p.1) := by
  exact ⟨by decide, by decide⟩

/-- **C9 (amended).** `player_count_by_activity` groups by the exact
stored activity label and does not canonicalise; the canonicalisation
happens at ingestion, where `players_by_world` maps `-`, `""` and
missing activities to the `"No Activity"` sentinel. Hence on every
store whose rows went through ingestion, the output has pairwise
distinct group labels and every missing/placeholder group label is
the single canonical `"No Activity"` sentinel. -/
theorem by_activity_single_no_activity_group_after_ingestion
    (rows : List PlayerCountByWorld) (s e : Timestamp)
    (hing : ∀ r ∈ rows, ∃ a, r.activity = some (normalizeActivity a)) :
    (∀ p ∈ player_count_by_activity rows s e,
      isNoActivityLabel p.1 → p.1 = some "No Activity") ∧
    ((player_count_by_activity rows s e).map Prod.fst).Nodup := by
  constructor
  · intro p hp hlab
    simp only [player_count_by_activity] at hp
    rw [mem_sortByLe] at hp
    obtain ⟨a, ha, hpa⟩ := List.mem_map.mp hp
    obtain ⟨r, hr, hra⟩ :=
      List.mem_map.mp (List.mem_dedup.mp ha)
    obtain ⟨a0, ha0⟩ := hing r (List.mem_filter.mp hr).1
    have hp1 : p.1 = some (normalizeActivity a0) := by
      rw [← hpa, ← ha0, hra]
    rw [hp1]
    rw [hp1] at hlab
    unfold normalizeActivity at *
    rcases a0 with _ | str
    · rfl
    · rcases hlab with h | h | h | h <;> simp_all <;> split_ifs at * <;> simp_all
  · simp only [player_count_by_activity]
    refine (List.Perm.nodup_iff ((sortByLe_perm _ _).map Prod.fst)).mpr ?_
    rw [List.map_map]
    refine List.Nodup.map ?_ (List.nodup_dedup _)
    intro a b hab
    exact hab

/-- Witness for the amended C9: a store whose activities are all
ingestion-normalised. -/
theorem by_activity_single_no_activity_group_after_ingestion_witness :
    (∀ p ∈ player_count_by_activity c6Rows ⟨2024, 3, 5, 0, 0, 0⟩
        ⟨2024, 3, 5, 23, 59, 59⟩,
      isNoActivityLabel p.1 → p.1 = some "No Activity") ∧
    ((player_count_by_activity c6Rows ⟨2024, 3, 5, 0, 0, 0⟩
        ⟨2024, 3, 5, 23, 59, 59⟩).map Prod.fst).Nodup := by
  refine by_activity_single_no_activity_group_after_ingestion c6Rows _ _ ?_
  intro r hr
  simp only [c6Rows, List.mem_cons, List.not_mem_nil, or_false] at hr
  rcases hr with rfl | rfl
  · exact ⟨none, rfl⟩
  · exact ⟨some "PvP", rfl⟩

/-! ### C10: by-activity output ordering -/

/-- **C10.** The by-activity output is ordered descending by each
group's summed player total. -/
theorem by_activity_sorted_desc (rows : List PlayerCountByWorld)
    (s e : Timestamp) :
    (player_count_by_activity rows s e).Pairwise
      (fun p q => q.2.1 ≤ p.2.1) := by
  simp only [player_count_by_activity]
  exact sortByLe_descOn_pairwise
    (fun p : Option String × Nat × Nat => p.2.1) _

/-! ### C6: snapshot at an explicit timestamp is an exact match -/

/-- **C6.** With an explicit timestamp, `world_snapshot` returns
exactly the rows whose timestamp equals it (order aside): it is a
permutation of the exact-match filter, in particular it returns all
rows of a store sharing that timestamp, and an instant with no exact
match yields the empty sequence rather than an error or a
latest-at-or-before result. -/
theorem world_snapshot_exact_match (rows : List PlayerCountByWorld)
    (t : Timestamp) :
    (world_snapshot rows (some t)).Perm
      ((rows.filter (fun r => decide (r.timestamp = t))).map snapshotRow) ∧
    ((∀ r ∈ rows, r.timestamp = t) →
      (world_snapshot rows (some t)).Perm (rows.map snapshotRow)) ∧
    ((∀ r ∈ rows, r.timestamp ≠ t) → world_snapshot rows (some t) = []) := by
  refine ⟨sortByLe_perm _ _, ?_, ?_⟩
  · intro h
    have hf : rows.filter (fun r => decide (r.timestamp = t)) = rows :=
      List.filter_eq_self.mpr (fun r hr => by simp [h r hr])
    show (sortByLe (fun a b => decide (b.2.1 ≤ a.2.1))
      ((rows.filter (fun r => decide (r.timestamp = t))).map snapshotRow)).Perm
      (rows.map snapshotRow)
    rw [hf]
    exact sortByLe_perm _ _
  · intro h
    have hf : rows.filter (fun r => decide (r.timestamp = t)) = [] :=
      List.filter_eq_nil_iff.mpr (fun r hr => by simp [h r hr])
    show sortByLe (fun a b => decide (b.2.1 ≤ a.2.1))
      ((rows.filter (fun r => decide (r.timestamp = t))).map snapshotRow) = []
    rw [hf]
    rfl

/-- Witness for C6: both rows of `c6Rows` share the scrape instant,
and an unmatched instant returns the empty sequence. -/
theorem world_snapshot_exact_match_witness :
    (world_snapshot c6Rows (some ⟨2024, 3, 5, 12, 0, 0⟩)).Perm
      (c6Rows.map snapshotRow) ∧
    world_snapshot c6Rows (some ⟨2024, 3, 5, 13, 0, 0⟩) = [] := by
  refine ⟨?_, ?_⟩
  · exact (world_snapshot_exact_match c6Rows ⟨2024, 3, 5, 12, 0, 0⟩).2.1 (by decide)
  · exact (world_snapshot_exact_match c6Rows ⟨2024, 3, 5, 13, 0, 0⟩).2.2 (by decide)

/-! ### C7: snapshot with no timestamp resolves to the latest scrape -/

/-- **C7.** With no timestamp, `world_snapshot` resolves the
reference instant to the maximum timestamp over all rows and returns
the rows at exactly that instant sorted descending by player count;
an empty store yields the empty sequence. -/
theorem world_snapshot_latest (rows : List PlayerCountByWorld) :
    (rows = [] → world_snapshot rows none = []) ∧
    (rows ≠ [] → ∃ tm,
      maxTs rows = some tm ∧
      (∃ r ∈ rows, r.timestamp = tm) ∧
      (∀ r ∈ rows, chronLe r.timestamp tm) ∧
      (world_snapshot rows none).Perm
        ((rows.filter (fun r => decide (r.timestamp = tm))).map snapshotRow) ∧
      (world_snapshot rows none).Pairwise (fun a b => b.2.1 ≤ a.2.1)) := by
  constructor
  · intro h; subst h; rfl
  · intro h
    rcases hm : maxTs rows with _ | tm
    · exact absurd ((maxTs_eq_none_iff rows).mp hm) h
    · obtain ⟨hmem, hub⟩ := maxTs_spec rows tm hm
      refine ⟨tm, rfl, hmem, hub, ?_, ?_⟩
      · show (world_snapshot rows none).Perm _
        unfold world_snapshot
        rw [hm]
        exact sortByLe_perm _ _
      · unfold world_snapshot
        rw [hm]
        exact sortByLe_descOn_pairwise
          (fun p : String × Nat × Option String × Option String ×
            Option String × Timestamp => p.2.1) _

/-- Witness for C7 on a store with two scrape instants. -/
theorem world_snapshot_latest_witness :
    maxTs c7Rows = some c7Max ∧
    (world_snapshot c7Rows none).Perm
      ((c7Rows.filter (fun r => decide (r.timestamp = c7Max))).map snapshotRow) ∧
    (world_snapshot c7Rows none).Pairwise (fun a b => b.2.1 ≤ a.2.1) := by
  obtain ⟨tm, hmax, _, _, hperm, hsort⟩ :=
    (world_snapshot_latest c7Rows).2 (by decide)
  have he : tm = c7Max := by
    have h2 : maxTs c7Rows = some c7Max := by decide
    rw [h2] at hmax
    exact ((Option.some.injEq _ _).mp hmax).symm
  subst he
  exact ⟨hmax, hperm, hsort⟩

end RSQueries
